import Mathlib

/-!
Verification of the nanochat cross-implementation comparison harness
(`examples/compare_outputs.py`).

The harness runs three fixed prompts through an in-process Python
implementation (A) and an out-of-process Ruby implementation (B), then
compares the two outputs by their longest common leading substring.

Shallow embedding conventions:
* Python strings are `List Char`.
* The external collaborators (`get_tokenizer`, `GPT.from_checkpoint`,
  `get_device`, `Engine.new`, `engine.generate`, and the spawned Ruby
  subprocess) are opaque; their behaviour is a "world" record passed in.
* A Python value `None` is `Option.none`; a raised exception is
  `Except.error`.  `KeyboardInterrupt` is not a Python `Exception`
  subclass, so `except Exception` clauses do not catch it; the model
  keeps it as a separate `Exn` constructor.
* Observable order of events is made explicit as an `Event` trace.
-/

/-- An exception in the Python process.  `keyboardInterrupt` models
`KeyboardInterrupt` (a `BaseException` that `except Exception` does not
catch); `other` models every ordinary `Exception` with its message. -/
inductive Exn where
  | keyboardInterrupt
  | other (msg : List Char)
deriving DecidableEq

/-- The request fields both implementations are invoked with:
prompt text, `max_tokens`, `temperature`, `top_p`. -/
structure GenRequest where
  prompt : List Char
  maxTokens : Nat
  temperature : Rat
  topP : Rat
deriving DecidableEq

/-- The observable parameters of the `subprocess.run` call made for the
Ruby side: the request serialized into the generated script, and the
wall-clock timeout passed to `subprocess.run`. -/
structure SubprocCall where
  request : GenRequest
  timeout : Nat
deriving DecidableEq

/-- Outcome of the `subprocess.run` call: the child completed with an
exit code, stdout and stderr; or `subprocess.TimeoutExpired` was raised;
or some other exception was raised while spawning/running. -/
inductive ProcOutcome where
  | completed (exitCode : Int) (stdout : List Char) (stderr : List Char)
  | timedOut
  | raised (e : Exn)
deriving DecidableEq

/-- The collaborators `generate_python` can invoke, in source order:
`get_tokenizer()`, `GPT.from_checkpoint(...)`, `get_device()`,
`Engine(model, tokenizer, device=device)`, `engine.generate(...)`. -/
inductive Collab where
  | tokenizer
  | fromCheckpoint
  | device
  | engineNew
  | engineGenerate
deriving DecidableEq

/-- Diagnostic lines printed by `generate_ruby` on its failure paths. -/
inductive LogLine where
  | rubyError (stderr : List Char)
  | rubyTimeout
  | rubyExecFailed (msg : List Char)
deriving DecidableEq

/-- Behaviour of the environment seen by `generate_python` for one call:
whether the checkpoint file exists, and the outcome of each collaborator
call (either a raised exception or a normal return; `engine.generate`
returns the generated string). -/
structure PyWorld where
  checkpointExists : Bool
  tokenizer : Except Exn Unit
  fromCheckpoint : Except Exn Unit
  device : Except Exn Unit
  engineNew : Except Exn Unit
  engineGen : GenRequest → Except Exn (List Char)

/-- Environment for one whole prompt iteration: the Python-side world
and the behaviour of the spawned Ruby subprocess as a function of the
call that is made. -/
structure PromptWorld where
  py : PyWorld
  ruby : SubprocCall → ProcOutcome

/-- The request `generate_python` passes to `engine.generate`
(`top_p=0.95` is hard-coded at the call site in the source). -/
def pyEngineRequest (prompt : List Char) (maxTokens : Nat) (temperature : Rat) : GenRequest :=
  ⟨prompt, maxTokens, temperature, (0.95 : Rat)⟩

/-- `generate_python(prompt, max_tokens, temperature)`.  Returns the
result of the call (`Except.error` when an exception escapes, otherwise
`none` for the missing-checkpoint early return or `some` output) paired
with the list of collaborators invoked, in order.  Note the source has
no try/except: every collaborator exception propagates to the caller. -/
def generate_python (w : PyWorld) (prompt : List Char) (maxTokens : Nat)
    (temperature : Rat) : Except Exn (Option (List Char)) × List Collab :=
  if w.checkpointExists = false then (Except.ok none, [])
  else
    match w.tokenizer with
    | Except.error e => (Except.error e, [Collab.tokenizer])
    | Except.ok _ =>
      match w.fromCheckpoint with
      | Except.error e => (Except.error e, [Collab.tokenizer, Collab.fromCheckpoint])
      | Except.ok _ =>
        match w.device with
        | Except.error e =>
            (Except.error e, [Collab.tokenizer, Collab.fromCheckpoint, Collab.device])
        | Except.ok _ =>
          match w.engineNew with
          | Except.error e =>
              (Except.error e,
               [Collab.tokenizer, Collab.fromCheckpoint, Collab.device, Collab.engineNew])
          | Except.ok _ =>
            match w.engineGen (pyEngineRequest prompt maxTokens temperature) with
            | Except.error e =>
                (Except.error e,
                 [Collab.tokenizer, Collab.fromCheckpoint, Collab.device,
                  Collab.engineNew, Collab.engineGenerate])
            | Except.ok s =>
                (Except.ok (some s),
                 [Collab.tokenizer, Collab.fromCheckpoint, Collab.device,
                  Collab.engineNew, Collab.engineGenerate])

/-- The request serialized into the Ruby script (prompt via `repr`,
numeric fields interpolated, `top_p: 0.95` hard-coded in the script). -/
def rubyScriptRequest (prompt : List Char) (maxTokens : Nat) (temperature : Rat) : GenRequest :=
  ⟨prompt, maxTokens, temperature, (0.95 : Rat)⟩

/-- The `subprocess.run` call `generate_ruby` makes: the serialized
request plus `timeout=60`. -/
def rubySubprocCall (prompt : List Char) (maxTokens : Nat) (temperature : Rat) : SubprocCall :=
  ⟨rubyScriptRequest prompt maxTokens temperature, 60⟩

/-- ASCII whitespace, the characters Python's `str.strip()` removes
(restricted to the ASCII range; the harness only handles ASCII text). -/
def isPySpace (c : Char) : Bool :=
  c == ' ' || c == '\t' || c == '\n' || c == '\r' || c == '\x0b' || c == '\x0c'

/-- Python's `str.strip()`: drop whitespace from both ends. -/
def pyStrip (s : List Char) : List Char :=
  ((s.dropWhile isPySpace).reverse.dropWhile isPySpace).reverse

/-- `generate_ruby(prompt, max_tokens, temperature)`.  Spawns the Ruby
subprocess; on `TimeoutExpired` or any ordinary `Exception` it prints a
diagnostic and returns `None`; on non-zero exit it prints the captured
stderr and returns `None`; on exit 0 it returns `stdout.strip()`.
A `KeyboardInterrupt` is not an `Exception`, so it escapes. -/
def generate_ruby (run : SubprocCall → ProcOutcome) (prompt : List Char)
    (maxTokens : Nat) (temperature : Rat) :
    Except Exn (Option (List Char)) × List LogLine :=
  match run (rubySubprocCall prompt maxTokens temperature) with
  | ProcOutcome.completed code out err =>
      if code ≠ 0 then (Except.ok none, [LogLine.rubyError err])
      else (Except.ok (some (pyStrip out)), [])
  | ProcOutcome.timedOut => (Except.ok none, [LogLine.rubyTimeout])
  | ProcOutcome.raised e =>
      match e with
      | Exn.keyboardInterrupt => (Except.error Exn.keyboardInterrupt, [])
      | Exn.other m => (Except.ok none, [LogLine.rubyExecFailed m])

/-- Lexicographic `<=` on Python strings (by code point; a prefix is
smaller than any proper extension). -/
def lexLe : List Char → List Char → Bool
  | [], _ => true
  | _ :: _, [] => false
  | a :: as, b :: bs =>
      if a < b then true
      else if b < a then false
      else lexLe as bs

/-- Character-by-character scan of `os.path.commonprefix`: walk `s1`,
stop at the first position where `s2` differs.  (The source compares
`s1 = min(m)` against `s2 = max(m)`; with `s1` lexicographically least,
`s2` can never run out before a mismatch, so the second branch is
unreachable on the inputs `commonPrefixOf` supplies.) -/
def cpGo : List Char → List Char → List Char
  | [], _ => []
  | _ :: _, [] => []
  | c :: cs, d :: ds => if c = d then c :: cpGo cs ds else []

/-- `os.path.commonprefix([a, b])`: scan `min(a,b)` against `max(a,b)`. -/
def commonPrefixOf (a b : List Char) : List Char :=
  cpGo (if lexLe a b then a else b) (if lexLe a b then b else a)

/-- Outcome of the per-prompt analysis block. -/
inductive Outcome where
  | agreement
  | divergence
  | skipped
deriving DecidableEq

/-- The analysis step: `if python_output and ruby_output:` (Python
truthiness, so `None` and the empty string both skip the analysis),
then agreement iff `len(common_prefix) > len(prompt)`. -/
def analysisOutcome : Option (List Char) → Option (List Char) → List Char → Outcome
  | some a, some b, p =>
      if a = [] then Outcome.skipped
      else if b = [] then Outcome.skipped
      else if (commonPrefixOf a b).length > p.length then Outcome.agreement
      else Outcome.divergence
  | _, _, _ => Outcome.skipped

/-- The per-result report line: `if python_output: print(output) else
print("(failed)")` — truthiness again, so `None` and the empty string
render identically. -/
def resultLine (r : Option (List Char)) : List Char :=
  match r with
  | some s => if s = [] then ("(failed)".data) else s
  | none => "(failed)".data

/-- What the loop body records for one prompt when no exception escapes. -/
structure PromptReport where
  prompt : List Char
  aResult : Option (List Char)
  bResult : Option (List Char)
  outcome : Outcome
deriving DecidableEq

/-- Observable events of the comparison loop, used to state ordering. -/
inductive Event where
  | invokeA (p : List Char)
  | invokeB (p : List Char)
  | report (p : List Char)
deriving DecidableEq

/-- One iteration of the loop body in `compare_outputs`: run A (its
exceptions propagate), then run B (its exceptions propagate), then the
analysis.  The event trace records what was reached. -/
def comparePrompt (pw : PromptWorld) (p : List Char) :
    Except Exn PromptReport × List Event :=
  match (generate_python pw.py p 50 (0.8 : Rat)).1 with
  | Except.error e => (Except.error e, [Event.invokeA p])
  | Except.ok aRes =>
    match (generate_ruby pw.ruby p 50 (0.8 : Rat)).1 with
    | Except.error e => (Except.error e, [Event.invokeA p, Event.invokeB p])
    | Except.ok bRes =>
        (Except.ok ⟨p, aRes, bRes, analysisOutcome aRes bRes p⟩,
         [Event.invokeA p, Event.invokeB p, Event.report p])

/-- The `for prompt in test_prompts` loop: strictly sequential, aborts
at the first escaping exception, otherwise accumulates one report per
prompt in order. -/
def runPrompts (w : List Char → PromptWorld) :
    List (List Char) → Except Exn (List PromptReport) × List Event
  | [] => (Except.ok [], [])
  | p :: ps =>
      let pr := comparePrompt (w p) p
      match pr.1 with
      | Except.error e => (Except.error e, pr.2)
      | Except.ok r =>
          let rest := runPrompts w ps
          match rest.1 with
          | Except.error e => (Except.error e, pr.2 ++ rest.2)
          | Except.ok rs => (Except.ok (r :: rs), pr.2 ++ rest.2)

/-- The fixed prompt list of `compare_outputs`. -/
def testPrompts : List (List Char) :=
  ["Once upon a time".data, "The meaning of life is".data, "Hello, how are you?".data]

/-- `compare_outputs()`: process the fixed prompt list. -/
def compare_outputs (w : List Char → PromptWorld) :
    Except Exn (List PromptReport) × List Event :=
  runPrompts w testPrompts

/-- The `__main__` guard: normal completion exits 0; `KeyboardInterrupt`
and any other escaping exception are caught at top level, printed, and
turn into `sys.exit(1)`. -/
def mainExit (w : List Char → PromptWorld) : Nat :=
  match (compare_outputs w).1 with
  | Except.ok _ => 0
  | Except.error _ => 1

/-! ### Helper lemmas about the common-prefix computation -/

theorem cpGo_comm (a : List Char) : ∀ b, cpGo a b = cpGo b a := by
  induction a with
  | nil => intro b; cases b <;> rfl
  | cons c cs ih =>
    intro b
    cases b with
    | nil => rfl
    | cons d ds =>
      simp only [cpGo]
      by_cases h : c = d
      · subst h
        simp [ih]
      · have h' : ¬ d = c := fun hdc => h hdc.symm
        simp [h, h']

theorem commonPrefixOf_eq_cpGo (a b : List Char) : commonPrefixOf a b = cpGo a b := by
  unfold commonPrefixOf
  by_cases h : lexLe a b = true
  · simp [h]
  · simp [h, cpGo_comm]

theorem cpGo_nil_right (a : List Char) : cpGo a [] = [] := by
  cases a <;> rfl

theorem cpGo_nil_left (b : List Char) : cpGo [] b = [] := by
  cases b <;> rfl

theorem cpGo_prefix_left (a : List Char) : ∀ b, ∃ t, cpGo a b ++ t = a := by
  induction a with
  | nil => intro b; exact ⟨[], rfl⟩
  | cons c cs ih =>
    intro b
    cases b with
    | nil => exact ⟨c :: cs, rfl⟩
    | cons d ds =>
      by_cases h : c = d
      · obtain ⟨t, ht⟩ := ih ds
        refine ⟨t, ?_⟩
        simp [cpGo, h, ht]
      · exact ⟨c :: cs, by simp [cpGo, h]⟩

theorem cpGo_prefix_right (a b : List Char) : ∃ t, cpGo a b ++ t = b := by
  rw [cpGo_comm]
  exact cpGo_prefix_left b a

/-- Shared shape of the analysis step: agreement is reported exactly
when the common-prefix length strictly exceeds the prompt length. -/
theorem analysis_agree_iff (a b p : List Char) :
    analysisOutcome (some a) (some b) p = Outcome.agreement ↔
      (commonPrefixOf a b).length > p.length := by
  by_cases ha : a = []
  · subst ha
    have h0 : commonPrefixOf [] b = [] := by
      rw [commonPrefixOf_eq_cpGo, cpGo_nil_left]
    simp [analysisOutcome, h0]
  · by_cases hb : b = []
    · subst hb
      have h0 : commonPrefixOf a [] = [] := by
        rw [commonPrefixOf_eq_cpGo, cpGo_nil_right]
      simp [analysisOutcome, ha, h0]
    · by_cases hc : (commonPrefixOf a b).length > p.length
      · simp [analysisOutcome, ha, hb, hc]
      · simp [analysisOutcome, ha, hb, hc]

/-! ### Helper lemmas about the loop structure -/

/-- Expected event trace of a run in which no exception escapes. -/
def fullTrace : List (List Char) → List Event
  | [] => []
  | p :: ps => Event.invokeA p :: Event.invokeB p :: Event.report p :: fullTrace ps

theorem comparePrompt_eq_of_ok (pw : PromptWorld) (p : List Char)
    (aRes bRes : Option (List Char))
    (hA : (generate_python pw.py p 50 (0.8 : Rat)).1 = Except.ok aRes)
    (hB : (generate_ruby pw.ruby p 50 (0.8 : Rat)).1 = Except.ok bRes) :
    comparePrompt pw p =
      (Except.ok ⟨p, aRes, bRes, analysisOutcome aRes bRes p⟩,
       [Event.invokeA p, Event.invokeB p, Event.report p]) := by
  unfold comparePrompt
  rw [hA, hB]

theorem comparePrompt_eq_of_pyError (pw : PromptWorld) (p : List Char) (e : Exn)
    (hA : (generate_python pw.py p 50 (0.8 : Rat)).1 = Except.error e) :
    comparePrompt pw p = (Except.error e, [Event.invokeA p]) := by
  unfold comparePrompt
  rw [hA]

theorem comparePrompt_ok_inv (pw : PromptWorld) (p : List Char) (r : PromptReport)
    (h : (comparePrompt pw p).1 = Except.ok r) :
    r.prompt = p ∧
      (comparePrompt pw p).2 = [Event.invokeA p, Event.invokeB p, Event.report p] := by
  cases hA : (generate_python pw.py p 50 (0.8 : Rat)).1 with
  | error e => rw [comparePrompt_eq_of_pyError pw p e hA] at h; cases h
  | ok aRes =>
    cases hB : (generate_ruby pw.ruby p 50 (0.8 : Rat)).1 with
    | error e =>
      unfold comparePrompt at h
      rw [hA, hB] at h
      cases h
    | ok bRes =>
      rw [comparePrompt_eq_of_ok pw p aRes bRes hA hB] at h ⊢
      cases h
      exact ⟨rfl, rfl⟩

theorem runPrompts_cons_error (w : List Char → PromptWorld) (p : List Char)
    (ps : List (List Char)) (e : Exn)
    (hr : (comparePrompt (w p) p).1 = Except.error e) :
    runPrompts w (p :: ps) = (Except.error e, (comparePrompt (w p) p).2) := by
  simp only [runPrompts]
  rw [hr]

theorem runPrompts_ok (w : List Char → PromptWorld) :
    ∀ ps : List (List Char),
      (∀ p ∈ ps, ∃ r, (comparePrompt (w p) p).1 = Except.ok r) →
      ∃ rs, (runPrompts w ps).1 = Except.ok rs ∧
        rs.map PromptReport.prompt = ps ∧
        (runPrompts w ps).2 = fullTrace ps := by
  intro ps
  induction ps with
  | nil => intro _; exact ⟨[], rfl, rfl, rfl⟩
  | cons p ps ih =>
    intro h
    obtain ⟨r, hr⟩ := h p (List.mem_cons_self p ps)
    obtain ⟨rs, h1, h2, h3⟩ := ih (fun q hq => h q (List.mem_cons_of_mem p hq))
    obtain ⟨hrp, hrev⟩ := comparePrompt_ok_inv (w p) p r hr
    have hrun : runPrompts w (p :: ps) =
        (Except.ok (r :: rs), (comparePrompt (w p) p).2 ++ (runPrompts w ps).2) := by
      simp only [runPrompts]
      rw [hr, h1]
    refine ⟨r :: rs, ?_, ?_, ?_⟩
    · rw [hrun]
    · simp [h2, hrp]
    · rw [hrun]
      simp [fullTrace, hrev, h3]

theorem comparePrompt_eq_of_rubyError (pw : PromptWorld) (p : List Char) (e : Exn)
    (aRes : Option (List Char))
    (hA : (generate_python pw.py p 50 (0.8 : Rat)).1 = Except.ok aRes)
    (hB : (generate_ruby pw.ruby p 50 (0.8 : Rat)).1 = Except.error e) :
    comparePrompt pw p = (Except.error e, [Event.invokeA p, Event.invokeB p]) := by
  unfold comparePrompt
  rw [hA, hB]

/-! ### Claims -/

/-- C2: for every pair of present results (a, b) and prompt P, the
analysis step reports agreement if and only if the length of the longest
common leading substring of a and b strictly exceeds the length of P. -/
theorem claim_c2_agreement_iff (a b p : List Char) :
    analysisOutcome (some a) (some b) p = Outcome.agreement ↔
      (commonPrefixOf a b).length > p.length :=
  analysis_agree_iff a b p

/-- C9: the common-prefix computation is a pure, deterministic function
of its two input strings — two evaluations on the same pair coincide —
and it indeed computes a common leading substring of both inputs. -/
theorem claim_c9_pure_deterministic (a b : List Char) :
    commonPrefixOf a b = commonPrefixOf a b ∧
    commonPrefixOf a b = cpGo a b ∧
    (∃ t, commonPrefixOf a b ++ t = a) ∧
    (∃ t, commonPrefixOf a b ++ t = b) := by
  refine ⟨rfl, commonPrefixOf_eq_cpGo a b, ?_, ?_⟩
  · rw [commonPrefixOf_eq_cpGo]
    exact cpGo_prefix_left a b
  · rw [commonPrefixOf_eq_cpGo]
    exact cpGo_prefix_right a b

/-- C7: both implementations are invoked with the same request fields:
the identical prompt, max_tokens, temperature, and top_p = 0.95; at the
call sites in the loop the values are max_tokens = 50 and
temperature = 0.8; and when all collaborators succeed, A's engine is
called with exactly that request. -/
theorem claim_c7_same_request :
    (∀ (p : List Char) (mt : Nat) (t : Rat),
       pyEngineRequest p mt t = rubyScriptRequest p mt t ∧
       (rubySubprocCall p mt t).request = rubyScriptRequest p mt t) ∧
    (∀ p : List Char,
       pyEngineRequest p 50 (0.8 : Rat) = GenRequest.mk p 50 (0.8 : Rat) (0.95 : Rat)) ∧
    (∀ (w : PyWorld) (p : List Char),
       w.checkpointExists = true → w.tokenizer = Except.ok () →
       w.fromCheckpoint = Except.ok () → w.device = Except.ok () →
       w.engineNew = Except.ok () →
       (generate_python w p 50 (0.8 : Rat)).1 =
         Except.map some (w.engineGen (pyEngineRequest p 50 (0.8 : Rat)))) := by
  refine ⟨fun p mt t => ⟨rfl, rfl⟩, fun p => rfl, ?_⟩
  intro w p hc ht hf hd he
  cases hg : w.engineGen (pyEngineRequest p 50 (0.8 : Rat)) with
  | error e => simp [generate_python, hc, ht, hf, hd, he, hg, Except.map]
  | ok s => simp [generate_python, hc, ht, hf, hd, he, hg, Except.map]

/-- A world in which every collaborator succeeds. -/
def c7World : PyWorld :=
  ⟨true, Except.ok (), Except.ok (), Except.ok (), Except.ok (),
   fun r => Except.ok r.prompt⟩

/-- Witness for C7 at a concrete world and prompt. -/
theorem claim_c7_same_request_witness :
    (generate_python c7World ("q".data) 50 (0.8 : Rat)).1 =
      Except.map some (c7World.engineGen (pyEngineRequest ("q".data) 50 (0.8 : Rat))) :=
  claim_c7_same_request.2.2 c7World ("q".data) rfl rfl rfl rfl rfl

/-- C3: when the checkpoint is missing, A's result is `None` without
raising and without invoking any collaborator, and the loop still
invokes B for that prompt (B's result is recorded when it returns). -/
theorem claim_c3_checkpoint_missing (pw : PromptWorld) (p : List Char)
    (h : pw.py.checkpointExists = false) :
    generate_python pw.py p 50 (0.8 : Rat) = (Except.ok none, []) ∧
    Event.invokeB p ∈ (comparePrompt pw p).2 ∧
    (∀ bRes, (generate_ruby pw.ruby p 50 (0.8 : Rat)).1 = Except.ok bRes →
       (comparePrompt pw p).1 =
         Except.ok ⟨p, none, bRes, analysisOutcome none bRes p⟩) := by
  have hgen : generate_python pw.py p 50 (0.8 : Rat) = (Except.ok none, []) := by
    simp [generate_python, h]
  have hA : (generate_python pw.py p 50 (0.8 : Rat)).1 = Except.ok none := by
    rw [hgen]
  refine ⟨hgen, ?_, ?_⟩
  · cases hB : (generate_ruby pw.ruby p 50 (0.8 : Rat)).1 with
    | error e =>
      rw [comparePrompt_eq_of_rubyError pw p e none hA hB]
      simp
    | ok bRes =>
      rw [comparePrompt_eq_of_ok pw p none bRes hA hB]
      simp
  · intro bRes hB
    rw [comparePrompt_eq_of_ok pw p none bRes hA hB]

/-- A world with a missing checkpoint whose Ruby side times out. -/
def c3World : PromptWorld :=
  ⟨⟨false, Except.ok (), Except.ok (), Except.ok (), Except.ok (), fun _ => Except.ok []⟩,
   fun _ => ProcOutcome.timedOut⟩

/-- Witness for C3 at a concrete world and prompt. -/
theorem claim_c3_checkpoint_missing_witness :
    generate_python c3World.py ("x".data) 50 (0.8 : Rat) = (Except.ok none, []) ∧
    Event.invokeB ("x".data) ∈ (comparePrompt c3World ("x".data)).2 := by
  have h := claim_c3_checkpoint_missing c3World ("x".data) rfl
  exact ⟨h.1, h.2.1⟩

/-- C4: the Ruby invocation passes timeout = 60 to `subprocess.run`; on
timeout, on non-zero exit (stderr surfaced as a diagnostic), and on any
ordinary spawn exception the result is `None`; and a `None` B result
still yields a per-prompt report, so the run continues. -/
theorem claim_c4_ruby_bounded (run : SubprocCall → ProcOutcome) (p : List Char)
    (mt : Nat) (t : Rat) :
    (rubySubprocCall p mt t).timeout = 60 ∧
    (run (rubySubprocCall p mt t) = ProcOutcome.timedOut →
       generate_ruby run p mt t = (Except.ok none, [LogLine.rubyTimeout])) ∧
    (∀ code out err, run (rubySubprocCall p mt t) = ProcOutcome.completed code out err →
       code ≠ 0 → generate_ruby run p mt t = (Except.ok none, [LogLine.rubyError err])) ∧
    (∀ m, run (rubySubprocCall p mt t) = ProcOutcome.raised (Exn.other m) →
       generate_ruby run p mt t = (Except.ok none, [LogLine.rubyExecFailed m])) ∧
    (∀ (pw : PromptWorld) (aRes : Option (List Char)),
       (generate_python pw.py p 50 (0.8 : Rat)).1 = Except.ok aRes →
       (generate_ruby pw.ruby p 50 (0.8 : Rat)).1 = Except.ok none →
       (comparePrompt pw p).1 = Except.ok ⟨p, aRes, none, analysisOutcome aRes none p⟩) := by
  refine ⟨rfl, ?_, ?_, ?_, ?_⟩
  · intro h
    simp [generate_ruby, h]
  · intro code out err h hc
    simp [generate_ruby, h, hc]
  · intro m h
    simp [generate_ruby, h]
  · intro pw aRes hA hB
    rw [comparePrompt_eq_of_ok pw p aRes none hA hB]

/-- A world whose Ruby subprocess times out. -/
def timeoutRun : SubprocCall → ProcOutcome :=
  fun _ => ProcOutcome.timedOut

/-- Witness for C4 at a concrete run and prompt. -/
theorem claim_c4_ruby_bounded_witness :
    (rubySubprocCall ("x".data) 50 (0.8 : Rat)).timeout = 60 ∧
    generate_ruby timeoutRun ("x".data) 50 (0.8 : Rat) =
      (Except.ok none, [LogLine.rubyTimeout]) := by
  have h := claim_c4_ruby_bounded timeoutRun ("x".data) 50 (0.8 : Rat)
  exact ⟨h.1, h.2.1 rfl⟩

/-- A world in which every collaborator of A succeeds but the checkpoint
is missing on every prompt, and B always fails with exit code 1: every
per-prompt generation fails, but nothing raises. -/
def allFailWorld : List Char → PromptWorld :=
  fun _ =>
    ⟨⟨false, Except.ok (), Except.ok (), Except.ok (), Except.ok (), fun _ => Except.ok []⟩,
     fun _ => ProcOutcome.completed 1 [] ("err".data)⟩

theorem allFailWorld_prompt_ok (p : List Char) :
    (comparePrompt (allFailWorld p) p).1 =
      Except.ok ⟨p, none, none, Outcome.skipped⟩ := by
  have hA : (generate_python (allFailWorld p).py p 50 (0.8 : Rat)).1 = Except.ok none := rfl
  have hB : (generate_ruby (allFailWorld p).ruby p 50 (0.8 : Rat)).1 = Except.ok none := rfl
  rw [comparePrompt_eq_of_ok (allFailWorld p) p none none hA hB]
  rfl

/-- A world in which the checkpoint exists but `get_tokenizer()` raises. -/
def tokenizerBoomWorld : List Char → PromptWorld :=
  fun _ =>
    ⟨⟨true, Except.error (Exn.other ("boom".data)), Except.ok (), Except.ok (), Except.ok (),
      fun _ => Except.ok []⟩,
     fun _ => ProcOutcome.timedOut⟩

/-- C1 counterexample: an exception raised during A's generation path
(here from tokenizer construction) is not caught by the per-prompt step;
it escapes `compare_outputs` and aborts the whole run with exit code 1,
contradicting the claim that it is downgraded to an unavailable result. -/
theorem claim_c1_counterexample :
    (compare_outputs tokenizerBoomWorld).1 = Except.error (Exn.other ("boom".data)) ∧
    mainExit tokenizerBoomWorld = 1 := by
  exact ⟨rfl, rfl⟩

/-- C1 amended: only the missing-checkpoint case is downgraded; every
exception raised during A's generation path propagates out of the
per-prompt comparison step unchanged, and if it happens on the first
prompt the whole run aborts with exit code 1. -/
theorem claim_c1_amended :
    (∀ (pw : PromptWorld) (p : List Char) (e : Exn),
       (generate_python pw.py p 50 (0.8 : Rat)).1 = Except.error e →
       (comparePrompt pw p).1 = Except.error e) ∧
    (∀ (w : List Char → PromptWorld) (e : Exn),
       (generate_python (w ("Once upon a time".data)).py ("Once upon a time".data) 50
           (0.8 : Rat)).1 = Except.error e →
       mainExit w = 1) := by
  constructor
  · intro pw p e hA
    rw [comparePrompt_eq_of_pyError pw p e hA]
  · intro w e hA
    have hcp : (comparePrompt (w ("Once upon a time".data)) ("Once upon a time".data)).1 =
        Except.error e := by
      rw [comparePrompt_eq_of_pyError _ _ e hA]
    have hrun := runPrompts_cons_error w ("Once upon a time".data)
      ["The meaning of life is".data, "Hello, how are you?".data] e hcp
    unfold mainExit compare_outputs testPrompts
    rw [hrun]

/-- Witness for C1's amended statement at a concrete world. -/
theorem claim_c1_amended_witness :
    (comparePrompt (tokenizerBoomWorld []) []).1 =
      Except.error (Exn.other ("boom".data)) ∧
    mainExit tokenizerBoomWorld = 1 := by
  exact ⟨claim_c1_amended.1 (tokenizerBoomWorld []) [] (Exn.other ("boom".data)) rfl,
         claim_c1_amended.2 tokenizerBoomWorld (Exn.other ("boom".data)) rfl⟩

/-- A Ruby subprocess that exits 0 with whitespace-padded stdout. -/
def paddedRun : SubprocCall → ProcOutcome :=
  fun _ => ProcOutcome.completed 0 (" hi\n".data) []

/-- C5 counterexample: when B exits 0 with stdout " hi\n", the recorded
result text is the stripped "hi", not the captured standard output,
contradicting the claim that the result equals the captured stdout. -/
theorem claim_c5_counterexample :
    (generate_ruby paddedRun ("x".data) 50 (0.8 : Rat)).1 =
      Except.ok (some ("hi".data)) ∧
    decide (("hi".data : List Char) = (" hi\n".data : List Char)) = false := by
  exact ⟨rfl, rfl⟩

/-- C5 amended: when B exits 0 its result text is the captured standard
output with leading and trailing whitespace stripped; the prefix
comparison is then performed on the raw characters of the two recorded
result strings. -/
theorem claim_c5_amended (run : SubprocCall → ProcOutcome) (p out err : List Char)
    (mt : Nat) (t : Rat)
    (h : run (rubySubprocCall p mt t) = ProcOutcome.completed 0 out err) :
    (generate_ruby run p mt t).1 = Except.ok (some (pyStrip out)) ∧
    (∀ a b q : List Char,
       analysisOutcome (some a) (some b) q = Outcome.agreement ↔
         (commonPrefixOf a b).length > q.length) := by
  constructor
  · simp [generate_ruby, h]
  · exact fun a b q => analysis_agree_iff a b q

/-- Witness for C5's amended statement at a concrete run. -/
theorem claim_c5_amended_witness :
    (generate_ruby paddedRun ("x".data) 50 (0.8 : Rat)).1 =
      Except.ok (some (pyStrip (" hi\n".data))) :=
  (claim_c5_amended paddedRun ("x".data) (" hi\n".data) [] 50 (0.8 : Rat) rfl).1

/-- C6: the process exit code is 0 or 1; it is 1 exactly when an
exception (keyboard interrupt or any unhandled exception) escapes the
comparison run; and when every prompt's iteration completes without an
escaping exception — even with every generation failing — it is 0. -/
theorem claim_c6_exit_codes (w : List Char → PromptWorld) :
    (mainExit w = 0 ∨ mainExit w = 1) ∧
    (mainExit w = 1 ↔ ∃ e, (compare_outputs w).1 = Except.error e) ∧
    ((∀ p ∈ testPrompts, ∃ r, (comparePrompt (w p) p).1 = Except.ok r) →
       mainExit w = 0) := by
  refine ⟨?_, ?_, ?_⟩
  · cases h : (compare_outputs w).1 with
    | error e =>
      right
      simp [mainExit, h]
    | ok rs =>
      left
      simp [mainExit, h]
  · constructor
    · intro h1
      cases h : (compare_outputs w).1 with
      | error e => exact ⟨e, rfl⟩
      | ok rs => simp [mainExit, h] at h1
    · rintro ⟨e, he⟩
      simp [mainExit, he]
  · intro h
    obtain ⟨rs, h1, _, _⟩ := runPrompts_ok w testPrompts h
    simp [mainExit, compare_outputs, h1]

/-- Witness for C6 at a concrete world in which every generation fails
yet the exit code is 0. -/
theorem claim_c6_exit_codes_witness : mainExit allFailWorld = 0 := by
  apply (claim_c6_exit_codes allFailWorld).2.2
  intro p hp
  exact ⟨⟨p, none, none, Outcome.skipped⟩, allFailWorld_prompt_ok p⟩

/-- A world in which the checkpoint exists but `GPT.from_checkpoint`
raises on every prompt. -/
def loadBoomWorld : List Char → PromptWorld :=
  fun _ =>
    ⟨⟨true, Except.ok (), Except.error (Exn.other ("load failed".data)), Except.ok (),
      Except.ok (), fun _ => Except.ok []⟩,
     fun _ => ProcOutcome.timedOut⟩

/-- C8 counterexample: with a per-prompt failure that takes the form of
an exception in A's path on the first prompt, the run aborts: the event
trace stops after invoking A on the first prompt, and the second prompt
is never attempted — contradicting "every prompt in the list is
attempted" regardless of per-prompt failure. -/
theorem claim_c8_counterexample :
    (compare_outputs loadBoomWorld).1 = Except.error (Exn.other ("load failed".data)) ∧
    (compare_outputs loadBoomWorld).2 = [Event.invokeA ("Once upon a time".data)] ∧
    decide (Event.invokeA ("The meaning of life is".data) ∈
      (compare_outputs loadBoomWorld).2) = false := by
  exact ⟨rfl, rfl, rfl⟩

/-- C8 amended: prompts are processed strictly sequentially in list
order, within each prompt A's invocation precedes B's, and the run
continues past downgraded per-prompt failures (unavailable results); as
long as no exception escapes a generation path, every prompt in the list
is attempted, producing one report per prompt in order. -/
theorem claim_c8_amended (w : List Char → PromptWorld)
    (h : ∀ p ∈ testPrompts, ∃ r, (comparePrompt (w p) p).1 = Except.ok r) :
    ∃ rs, (compare_outputs w).1 = Except.ok rs ∧
      rs.map PromptReport.prompt = testPrompts ∧
      (compare_outputs w).2 = fullTrace testPrompts :=
  runPrompts_ok w testPrompts h

/-- Witness for C8's amended statement at a concrete world in which
every generation fails yet all three prompts are attempted in order. -/
theorem claim_c8_amended_witness :
    ∃ rs, (compare_outputs allFailWorld).1 = Except.ok rs ∧
      rs.map PromptReport.prompt = testPrompts ∧
      (compare_outputs allFailWorld).2 = fullTrace testPrompts := by
  apply claim_c8_amended
  intro p hp
  exact ⟨⟨p, none, none, Outcome.skipped⟩, allFailWorld_prompt_ok p⟩

theorem pyStrip_eq_nil_of_all_space (out : List Char) (h : out.all isPySpace = true) :
    pyStrip out = [] := by
  have h1 : out.dropWhile isPySpace = [] := by
    induction out with
    | nil => rfl
    | cons c cs ih =>
      simp [List.all_cons] at h
      simp [List.dropWhile, h.1, ih (by simp [List.all_eq_true]; exact h.2)]
  simp [pyStrip, h1]

/-- C10: an empty result string is reported exactly like an unavailable
one: the printed line is the failure line, the analysis is skipped on
either side, and a whitespace-only Ruby stdout strips to the empty
string, so a successful empty output is indistinguishable from failure
at the reporting interface. -/
theorem claim_c10_empty_is_failure :
    (∀ (b : Option (List Char)) (p : List Char),
       resultLine (some []) = resultLine none ∧
       analysisOutcome (some []) b p = Outcome.skipped ∧
       analysisOutcome none b p = Outcome.skipped) ∧
    (∀ (a : Option (List Char)) (p : List Char),
       analysisOutcome a (some []) p = analysisOutcome a none p) ∧
    (∀ out : List Char, out.all isPySpace = true → pyStrip out = []) ∧
    (∀ (run : SubprocCall → ProcOutcome) (p out err : List Char),
       run (rubySubprocCall p 50 (0.8 : Rat)) = ProcOutcome.completed 0 out err →
       out.all isPySpace = true →
       (generate_ruby run p 50 (0.8 : Rat)).1 = Except.ok (some [])) := by
  refine ⟨?_, ?_, ?_, ?_⟩
  · intro b p
    refine ⟨rfl, ?_, ?_⟩
    · cases b <;> rfl
    · cases b <;> rfl
  · intro a p
    cases a with
    | none => rfl
    | some s =>
      by_cases hs : s = [] <;> simp [analysisOutcome, hs]
  · exact fun out h => pyStrip_eq_nil_of_all_space out h
  · intro run p out err h hsp
    simp [generate_ruby, h, pyStrip_eq_nil_of_all_space out hsp]

/-- A Ruby subprocess that exits 0 with whitespace-only stdout. -/
def wsRun : SubprocCall → ProcOutcome :=
  fun _ => ProcOutcome.completed 0 (" \n".data) []

/-- Witness for C10 at a concrete whitespace-only output. -/
theorem claim_c10_empty_is_failure_witness :
    pyStrip (" \n".data) = [] ∧
    (generate_ruby wsRun ("x".data) 50 (0.8 : Rat)).1 = Except.ok (some []) := by
  refine ⟨?_, ?_⟩
  · exact claim_c10_empty_is_failure.2.2.1 (" \n".data) (by decide)
  · exact claim_c10_empty_is_failure.2.2.2 wsRun ("x".data) (" \n".data) [] rfl (by decide)
